import Mathlib

namespace NoviMor

/-! ## Frames

Shallow embedding of the per-frame data model shared by
`src/add_image_effects.py` (PIL images converted to numpy arrays) and
`src/add_video_effects.py` (moviepy frames, numpy arrays). -/

/-- A decoded frame: height, width, and a pixel function giving the 8-bit value
of channel `c` (0 = red, 1 = green, 2 = blue) at row `y`, column `x`.
Frames decoded from RGB media have 3 channels with values below 256; this is
tracked by `Frame.WF` rather than by the type. -/
structure Frame where
  h : ℕ
  w : ℕ
  px : ℕ → ℕ → ℕ → ℕ

/-- Wellformedness: every channel value of every pixel fits in 8 bits. -/
def Frame.WF (f : Frame) : Prop :=
  ∀ y < f.h, ∀ x < f.w, ∀ c < 3, f.px y x c ≤ 255

/-- Extensional equality of frames: same size, same pixels at valid indices. -/
def Frame.Eqv (f g : Frame) : Prop :=
  f.h = g.h ∧ f.w = g.w ∧ ∀ y < f.h, ∀ x < f.w, ∀ c < 3, f.px y x c = g.px y x c

instance (f : Frame) : Decidable f.WF := by
  unfold Frame.WF; infer_instance

instance (f g : Frame) : Decidable (f.Eqv g) := by
  unfold Frame.Eqv; infer_instance

/-- Model of the Python `level_map.get(level, default)` lookup used by every
parameterized effect: first matching key wins, a missing key yields the default. -/
def lookupLevel {α : Type} (pairs : List (String × α)) (d : α) (s : String) : α :=
  match pairs with
  | [] => d
  | (k, v) :: rest => if k = s then v else lookupLevel rest d s

/-- Truncation of a rational toward zero, the rounding C (and hence numpy's
float-to-integer cast) applies. -/
def ratTrunc (q : ℚ) : ℤ :=
  if 0 ≤ q then ⌊q⌋ else -⌊-q⌋

/-- Model of numpy's `.astype('uint8')` on a float value: truncation toward
zero followed by two's-complement wraparound modulo 256 (the behavior of the
C cast numpy performs on typical platforms). -/
def u8cast (q : ℚ) : ℕ :=
  ((ratTrunc q) % 256).toNat

/-- Index arithmetic of `np.roll(a, s, axis=1)` on a row of width `w`:
output column `x` holds the input value at column `(x - s) mod w`. -/
def rollIdx (w : ℕ) (s : ℤ) (x : ℕ) : ℕ :=
  (((x : ℤ) - s) % (w : ℤ)).toNat

/-! ## Chromatic Aberration

`ImageEffectsEngine.apply_chromatic_aberration` (src/add_image_effects.py,
lines 99-107) and `EffectsEngine.apply_chromatic_aberration`
(src/add_video_effects.py, lines 201-210): identical per-frame kernels.
`r_shifted = np.roll(r, -shift, axis=1)`, `b_shifted = np.roll(b, shift,
axis=1)`, `np.stack([r_shifted, g, b_shifted], axis=-1).astype('uint8')`.
The final `astype('uint8')` is the identity because the stacked channels are
already uint8 slices of the input. -/

/-- `level_map = {'low': 3, 'medium': 6, 'high': 10}`, `shift = level_map.get(level, 6)`. -/
def levelShift : String → ℕ :=
  lookupLevel [("low", 3), ("medium", 6), ("high", 10)] 6

/-- Per-frame kernel of the Chromatic Aberration effect. -/
def apply_chromatic_aberration (f : Frame) (level : String) : Frame :=
  let s := levelShift level
  ⟨f.h, f.w, fun y x c =>
    if c = 0 then f.px y (rollIdx f.w (-(s : ℤ)) x) 0
    else if c = 1 then f.px y x 1
    else f.px y (rollIdx f.w (s : ℤ) x) 2⟩

/-! ## Invert Colors

`ImageEffectsEngine.apply_invert_colors` uses `PIL.ImageOps.invert`, whose
point map on 8-bit channels is `v -> 255 - v`; the video engine uses
`moviepy vfx.invert_colors`, whose point map is `255 - im` on uint8 arrays. -/

/-- Per-frame kernel of the Invert Colors effect: `v -> 255 - v` per channel. -/
def apply_invert_colors (f : Frame) : Frame :=
  ⟨f.h, f.w, fun y x c => 255 - f.px y x c⟩

/-! ## Vignette

`ImageEffectsEngine.apply_vignette` (src/add_image_effects.py, lines 151-165)
and `EffectsEngine.apply_vignette` (src/add_video_effects.py, lines 340-356):
`vignette_mask = 1 - (radial_grad**2) * strength` with
`radial_grad = dist_from_center / max_dist`; the frame is multiplied by the
mask (no clamping anywhere) and cast with `.astype('uint8')`.
Since only the square of `radial_grad` is used, the mask is rational and the
square roots cancel: `radial_grad**2 = distSq / maxDistSq`. -/

/-- `level_map = {'low': 0.5, 'medium': 1.0, 'high': 1.5}`, default 1.0. -/
def levelStrength : String → ℚ :=
  lookupLevel [("low", 1/2), ("medium", 1), ("high", 3/2)] 1

/-- Squared distance of pixel `(y, x)` from the frame center `(h/2, w/2)`. -/
def distSq (h w y x : ℕ) : ℚ :=
  ((x : ℚ) - (w : ℚ)/2)^2 + ((y : ℚ) - (h : ℚ)/2)^2

/-- Squared maximum corner distance `center_x**2 + center_y**2`. -/
def maxDistSq (h w : ℕ) : ℚ :=
  ((w : ℚ)/2)^2 + ((h : ℚ)/2)^2

/-- The mask value `1 - (radial_grad**2) * strength` at pixel `(y, x)`. -/
def vignetteMask (h w : ℕ) (strength : ℚ) (y x : ℕ) : ℚ :=
  1 - (distSq h w y x / maxDistSq h w) * strength

/-- Per-frame kernel of the Vignette effect as the code computes it:
multiply by the (unclamped) mask, then cast to uint8. -/
def apply_vignette (f : Frame) (level : String) : Frame :=
  let strength := levelStrength level
  ⟨f.h, f.w, fun y x c =>
    u8cast ((f.px y x c : ℚ) * vignetteMask f.h f.w strength y x)⟩

/-- The Vignette kernel as the spec describes it: the multiplier is clamped to
be at least 0 before the 8-bit conversion. Written from the spec sentence
"multiply pixel by `1 - strength * (normalized_distance)^2`, clamped >= 0" to
compare with `apply_vignette`, which is translated from the source. -/
def apply_vignette_spec (f : Frame) (level : String) : Frame :=
  let strength := levelStrength level
  ⟨f.h, f.w, fun y x c =>
    u8cast ((f.px y x c : ℚ) * max 0 (vignetteMask f.h f.w strength y x))⟩

/-! ## Film Grain

`apply_film_grain` in both engines: `noise = np.random.randint(-25, 25,
frame.shape) * strength`, `np.clip(frame + noise, 0, 255).astype('uint8')`.
The sampled integer noise field is passed in as an explicit argument. -/

/-- `level_map = {'low': 1, 'medium': 1.5, 'high': 2}`, default 1.5. -/
def levelGrain : String → ℚ :=
  lookupLevel [("low", 1), ("medium", 3/2), ("high", 2)] (3/2)

/-- Per-frame kernel of the Film Grain effect, with `noise` the integer field
sampled by `np.random.randint(-25, 25, frame.shape)`. -/
def apply_film_grain (f : Frame) (noise : ℕ → ℕ → ℕ → ℤ) (level : String) : Frame :=
  let strength := levelGrain level
  ⟨f.h, f.w, fun y x c =>
    u8cast (max 0 (min 255 ((f.px y x c : ℚ) + (noise y x c : ℚ) * strength)))⟩

/-! ## Glitch

`ImageEffectsEngine.apply_glitch` (src/add_image_effects.py, lines 167-189):
`level_map = {'low': 30, 'medium': 50, 'high': 70}` with the comment
"Probability of a strip being glitched"; an attempt triggers when
`random.random() < probability`, i.e. when the uniform sample in [0,1) is
below 30, 50 or 70. (The video engine, lines 271-294, separately uses
probabilities 0.1/0.2/0.3 and a single attempt per frame.) A triggered
attempt rolls a strip and zeroes the vacated columns. -/

/-- Image engine: `level_map = {'low': 30, 'medium': 50, 'high': 70}`, default 50. -/
def glitchProbability : String → ℚ :=
  lookupLevel [("low", 30), ("medium", 50), ("high", 70)] 50

/-- The trigger test of one glitch attempt in the image engine:
`random.random() < probability` with `u` the uniform sample in [0,1). -/
def glitchTrigger (level : String) (u : ℚ) : Bool :=
  decide (u < glitchProbability level)

/-- The trigger test as the claim (and the code comment) intends it:
the uniform sample is below probability/100. -/
def glitchTriggerSpec (level : String) (u : ℚ) : Bool :=
  decide (u < glitchProbability level / 100)

/-- `angle = level_map.get(level, 90)` of the image engine. -/
def levelAngle : String → ℕ :=
  lookupLevel [("low", 15), ("medium", 45), ("high", 90)] 90

/-- Saturation, both engines: 1.3/1.7/2.2, default 1.7. -/
def levelSaturation : String → ℚ :=
  lookupLevel [("low", 13/10), ("medium", 17/10), ("high", 11/5)] (17/10)

/-- Contrast, image engine: 1.2/1.5/1.8, default 1.5. -/
def levelContrastImage : String → ℚ :=
  lookupLevel [("low", 6/5), ("medium", 3/2), ("high", 9/5)] (3/2)

/-- Contrast, video engine: 0.2/0.6/1.0, default 0.6. -/
def levelContrastVideo : String → ℚ :=
  lookupLevel [("low", 1/5), ("medium", 3/5), ("high", 1)] (3/5)

/-- Pixelation target width, both engines: 95/85/75, default 85. -/
def levelPixelSize : String → ℕ :=
  lookupLevel [("low", 95), ("medium", 85), ("high", 75)] 85

/-- Glitch probability, video engine: 0.1/0.2/0.3, default 0.2. -/
def glitchProbabilityVideo : String → ℚ :=
  lookupLevel [("low", 1/10), ("medium", 1/5), ("high", 3/10)] (1/5)

/-- Neon Glow edge threshold, both engines: 80/50/30, default 50. -/
def levelNeon : String → ℕ :=
  lookupLevel [("low", 80), ("medium", 50), ("high", 30)] 50

/-- Cartoon/Painterly median-filter size, both engines: 5/15/25, default 15. -/
def levelCartoon : String → ℕ :=
  lookupLevel [("low", 5), ("medium", 15), ("high", 25)] 15

/-- Rotate, video engine: -15, -45, -90 degrees, default -90. -/
def levelAngleVideo : String → ℤ :=
  lookupLevel [("low", -15), ("medium", -45), ("high", -90)] (-90)

/-- Ken Burns zoom target, video engine: 1.0/1.25/1.5, default 1.25. -/
def levelKenBurns : String → ℚ :=
  lookupLevel [("low", 1), ("medium", 5/4), ("high", 3/2)] (5/4)

/-- Speed factor, video engine: 1.25/1.5/2.0, default 1.5. -/
def levelSpeed : String → ℚ :=
  lookupLevel [("low", 5/4), ("medium", 3/2), ("high", 2)] (3/2)

/-- Rolling Shutter intensity, video engine: 5/12/20, default 12. -/
def levelRolling : String → ℕ :=
  lookupLevel [("low", 5), ("medium", 12), ("high", 20)] 12

/-- Fade In/Out duration, video engine: 1.0/1.5/2.0 s, default 1.5. -/
def levelFade : String → ℚ :=
  lookupLevel [("low", 1), ("medium", 3/2), ("high", 2)] (3/2)

/-! ## Pixelated Effect dimensions

`EffectsEngine.apply_pixelated` (src/add_video_effects.py, lines 212-222)
chains `clip.fx(vfx.resize, width=pixel_width)` and
`.fx(vfx.resize, width=original_width, interp='nearest')`: both resizes fix
only the width. (The image engine instead finishes with
`img_small.resize(img.size, ...)`, an exact restore, so only the video
variant can change dimensions.) -/

/-- A chain element: `(name, *params)` tuple, bare string, or other. -/
inductive EffectItem where
  | tupleItem (name : String) (params : List String)
  | strItem (name : String)
  | otherItem
deriving DecidableEq

/-- Model of `effect_name in self.effects_map` plus `self.effects_map[...]`:
association-list lookup of the effect registry. -/
def lookupEffect (name : String)
    (reg : List (String × (Frame → List String → Frame))) :
    Option (Frame → List String → Frame) :=
  match reg with
  | [] => none
  | (k, g) :: rest => if k = name then some g else lookupEffect name rest

/-- One step of the image-engine chain loop. The accumulator carries the
current frame and the printed lines (the image engine never prints). -/
def imgStep (reg : List (String × (Frame → List String → Frame)))
    (acc : Frame × List String) (e : EffectItem) : Frame × List String :=
  match e with
  | .tupleItem n ps =>
    match lookupEffect n reg with
    | some g => (g acc.1 ps, acc.2)
    | none => acc
  | .strItem n =>
    match lookupEffect n reg with
    | some g => (g acc.1 [], acc.2)
    | none => acc
  | .otherItem => acc

/-- The image-engine chain executor: fold the chain over the frame. -/
def apply_effects_in_sequence_image
    (reg : List (String × (Frame → List String → Frame)))
    (effects : List EffectItem) (f : Frame) : Frame × List String :=
  effects.foldl (imgStep reg) (f, [])

/-- One step of the video-engine chain loop: identical dispatch, but a
missing name (or an invalid element) appends a printed warning line.
The quoting and f-string interpolation of the printed message are elided. -/
def vidStep (reg : List (String × (Frame → List String → Frame)))
    (acc : Frame × List String) (e : EffectItem) : Frame × List String :=
  match e with
  | .tupleItem n ps =>
    match lookupEffect n reg with
    | some g => (g acc.1 ps, acc.2)
    | none => (acc.1, acc.2 ++ ["Warning: Parameterized effect " ++ n ++ " not found."])
  | .strItem n =>
    match lookupEffect n reg with
    | some g => (g acc.1 [], acc.2)
    | none => (acc.1, acc.2 ++ ["Warning: Effect " ++ n ++ " not found."])
  | .otherItem => (acc.1, acc.2 ++ ["Warning: Invalid effect format."])

/-- The video-engine chain executor: fold the chain over the clip frame,
collecting printed warnings. -/
def apply_effects_in_sequence_video
    (reg : List (String × (Frame → List String → Frame)))
    (effects : List EffectItem) (f : Frame) : Frame × List String :=
  effects.foldl (vidStep reg) (f, [])

/-! ## LUT parser

`parse_cube_file` in both engines (src/add_image_effects.py lines 53-68,
src/add_video_effects.py lines 13-35, identical logic). Lines are stripped;
blank and `#` lines skipped; a line starting with `LUT_3D_SIZE` sets
`lut_size = int(line.split()[-1])` (the last such line wins); a line matching
the anchored regex `[0-9eE.+-]+\s+[0-9eE.+-]+\s+[0-9eE.+-]+` appends
`[float(c) for c in line.split()]`; after the loop,
`if lut_size == 0 or not lut_data: raise ValueError(...)`, then
`np.array(lut_data).reshape((lut_size,)*3 + (3,))`.
String handling is modelled on the character lists of the line strings.
Numeric parsing models the Python `int()`/`float()` grammar on the token
character sets reachable here; underscore digit separators and non-ASCII
digits (accepted by Python but absent from any lines this code accepts in
its first three tokens) are not modelled. -/

/-- Strip leading and trailing whitespace (Python `str.strip()`). -/
def trimChars (cs : List Char) : List Char :=
  ((cs.dropWhile Char.isWhitespace).reverse.dropWhile Char.isWhitespace).reverse

/-- One `foldr` step of whitespace tokenization. -/
def splitWsAux (c : Char) (acc : List (List Char)) : List (List Char) :=
  if c.isWhitespace then [] :: acc
  else
    match acc with
    | [] => [[c]]
    | t :: ts => (c :: t) :: ts

/-- Python `str.split()`: split on whitespace runs, dropping empty tokens. -/
def splitWs (cs : List Char) : List (List Char) :=
  (cs.foldr splitWsAux []).filter (fun t => !t.isEmpty)

/-- Python `str.startswith(pat)` on character lists. -/
def startsWithL : List Char → List Char → Bool
  | [], _ => true
  | _ :: _, [] => false
  | p :: ps, c :: cs => p == c && startsWithL ps cs

/-- The character class `[0-9eE.+-]` of the data-row regex. -/
def lutNumChar (c : Char) : Bool :=
  c.isDigit || c == 'e' || c == 'E' || c == '.' || c == '+' || c == '-'

/-- `re.match` of the anchored, unanchored-at-the-end pattern
`[0-9eE.+-]+\s+[0-9eE.+-]+\s+[0-9eE.+-]+` on a stripped line, expressed on
its whitespace tokens: the first two tokens consist entirely of class
characters and the third token starts with one (the pattern ends inside the
third token, so trailing characters and extra tokens are allowed). -/
def dataLineMatch (toks : List (List Char)) : Bool :=
  match toks with
  | t1 :: t2 :: t3 :: _ =>
    !t1.isEmpty && t1.all lutNumChar && !t2.isEmpty && t2.all lutNumChar &&
      (match t3 with
       | c :: _ => lutNumChar c
       | [] => false)
  | _ => false

/-- Value of a digit string. -/
def digitsToNat (ds : List Char) : ℕ :=
  ds.foldl (fun n c => 10 * n + (c.toNat - 48)) 0

/-- Python `int(token)` on a whitespace-free token: optional sign then at
least one digit; anything else raises. -/
def pyInt? (cs : List Char) : Option ℤ :=
  let p : ℤ × List Char :=
    match cs with
    | '+' :: r => (1, r)
    | '-' :: r => (-1, r)
    | r => (1, r)
  if !p.2.isEmpty && p.2.all Char.isDigit then some (p.1 * digitsToNat p.2) else none

/-- Python `float(token)` on a whitespace-free token: optional sign, a
mantissa `digits [. digits]` with at least one digit on either side of the
point, and an optional exponent `e|E [sign] digits`. -/
def pyFloat? (cs : List Char) : Option ℚ :=
  let sp : ℚ × List Char :=
    match cs with
    | '+' :: r => (1, r)
    | '-' :: r => (-1, r)
    | r => (1, r)
  let ip := sp.2.takeWhile Char.isDigit
  let r2 := sp.2.dropWhile Char.isDigit
  let fp2 : List Char × List Char :=
    match r2 with
    | '.' :: r => (r.takeWhile Char.isDigit, r.dropWhile Char.isDigit)
    | r => ([], r)
  if ip.isEmpty && fp2.1.isEmpty then none
  else expPart (sp.1 * ((digitsToNat ip : ℚ) + (digitsToNat fp2.1 : ℚ) / 10 ^ fp2.1.length)) fp2.2
where
  /-- Parse the optional exponent suffix and apply it to the mantissa. -/
  expPart (mant : ℚ) : List Char → Option ℚ
    | [] => some mant
    | e :: r4 =>
      if e == 'e' || e == 'E' then
        let ep : ℤ × List Char :=
          match r4 with
          | '+' :: r => (1, r)
          | '-' :: r => (-1, r)
          | r => (1, r)
        if !ep.2.isEmpty && ep.2.all Char.isDigit then
          some (mant * 10 ^ (ep.1 * digitsToNat ep.2))
        else none
      else none

/-- The line loop of `parse_cube_file`: thread `(lut_size, lut_data)` through
one line, raising (as `Except.error`) when `int()` or `float()` fails. -/
def scanCubeLine (st : ℤ × List (List ℚ)) (line : String) :
    Except String (ℤ × List (List ℚ)) :=
  let lt := trimChars line.data
  if lt.isEmpty then Except.ok st
  else if startsWithL ['#'] lt then Except.ok st
  else if startsWithL "LUT_3D_SIZE".data lt then
    match pyInt? ((splitWs lt).getLastD []) with
    | some n => Except.ok (n, st.2)
    | none => Except.error "ValueError: invalid literal for int()"
  else if dataLineMatch (splitWs lt) then
    match (splitWs lt).mapM pyFloat? with
    | some row => Except.ok (st.1, st.2 ++ [row])
    | none => Except.error "ValueError: could not convert string to float"
  else Except.ok st

/-- The whole line loop: `lut_size` starts at 0, `lut_data` empty. -/
def scanCube (lines : List String) : Except String (ℤ × List (List ℚ)) :=
  lines.foldlM scanCubeLine (0, [])

/-- `np.array(lut_data).reshape((N, N, N, 3))` succeeds exactly when the rows
form a non-ragged 2-D array whose element count is `N*N*N*3` with `N >= 0`
(a ragged row list or a count mismatch raises). -/
def reshapeOk (n : ℤ) (data : List (List ℚ)) : Bool :=
  match data with
  | [] => false
  | r :: rs =>
    rs.all (fun q => q.length == r.length) && decide (0 ≤ n) &&
      ((data.length : ℤ) * r.length == n * n * n * 3)

/-- The parsed LUT: grid size and the data rows in file order. -/
structure CubeTable where
  size : ℕ
  rows : List (List ℚ)
deriving DecidableEq

/-- `parse_cube_file`: scan all lines, apply the
`lut_size == 0 or not lut_data` guard, then reshape. On any failure the
error propagates and no table is constructed. -/
def parse_cube_file (lines : List String) : Except String CubeTable := do
  let st ← scanCube lines
  if st.1 = 0 ∨ st.2 = [] then
    Except.error "Invalid or unsupported .cube file format."
  else if reshapeOk st.1 st.2 then
    Except.ok ⟨st.1.toNat, st.2⟩
  else
    Except.error "ValueError: cannot reshape array"

/-! ## Trilinear interpolator

`apply_lut` builds `RegularGridInterpolator((g, g, g), lut_table)` with
`g = np.linspace(0, 1, lut_size)` and evaluates it at the normalized pixels.
The scipy interpolator with its default `method="linear"` locates the cell of
a query coordinate with `searchsorted(grid, x, side="left") - 1` clamped to
`[0, N-2]`, takes the fractional offset within that cell, and blends the
8 cell corners linearly axis by axis. On the uniform grid the insertion index
of `x` is the number of grid points below `x`, i.e. `ceil(x*(N-1))` for
`x` in `[0, 1]`, written here as `-floor(-x*(N-1))`. -/

/-- Cell index of a query coordinate `x` on the `N`-point uniform grid. -/
def gridCell (N : ℕ) (x : ℚ) : ℕ :=
  (max 0 (min ((N : ℤ) - 2) (-⌊-(x * ((N : ℚ) - 1))⌋ - 1))).toNat

/-- Fractional offset of `x` within its cell:
`(x - grid[i]) / (grid[i+1] - grid[i])` on the uniform grid. -/
def gridFrac (N : ℕ) (x : ℚ) : ℚ :=
  x * ((N : ℚ) - 1) - (gridCell N x : ℚ)

/-- Linear blend `a*(1-t) + b*t`. -/
def lerp (a b t : ℚ) : ℚ :=
  a * (1 - t) + b * t

/-- One axis of the linear blend: interpolate the per-node values `v` between
the two grid nodes enclosing the query coordinate `x`. -/
def nodeBlend (N : ℕ) (v : ℕ → ℚ) (x : ℚ) : ℚ :=
  lerp (v (gridCell N x)) (v (gridCell N x + 1)) (gridFrac N x)

/-- Trilinear interpolation of one output channel over the `N` grid: blend
the 8 corners of the enclosing cell linearly axis by axis (r, then g, then
b), which is exactly the multilinear blend the scipy interpolator computes. -/
def trilinear (N : ℕ) (tab : ℕ → ℕ → ℕ → ℚ) (r g b : ℚ) : ℚ :=
  nodeBlend N
    (fun ir => nodeBlend N (fun jg => nodeBlend N (fun kb => tab ir jg kb) b) g) r

/-! ## Helper lemmas -/

lemma rollIdx_neg (w s x : ℕ) : rollIdx w (-(s : ℤ)) x = (x + s) % w := by
  unfold rollIdx
  rw [show (x : ℤ) - -(s : ℤ) = ((x + s : ℕ) : ℤ) by push_cast; ring,
    ← Int.natCast_mod, Int.toNat_natCast]

lemma rollIdx_pos (w s x : ℕ) (hsw : s ≤ w) :
    rollIdx w (s : ℤ) x = (x + w - s) % w := by
  unfold rollIdx
  have hx : s ≤ x + w := by omega
  have h1 : ((x + w - s : ℕ) : ℤ) = (x : ℤ) + w - s := by
    rw [Nat.cast_sub hx]; push_cast; ring
  have h2 : ((x : ℤ) - s) % (w : ℤ) = (((x + w - s) % w : ℕ) : ℤ) := by
    rw [Int.natCast_mod, h1,
      show (x : ℤ) + w - s = (x : ℤ) - s + (w : ℤ) * 1 by ring,
      Int.add_mul_emod_self_left]
  rw [h2, Int.toNat_natCast]

lemma lookupLevel_unknown {α : Type} (a b c d : α) (s : String)
    (h1 : s ≠ "low") (h2 : s ≠ "medium") (h3 : s ≠ "high") :
    lookupLevel [("low", a), ("medium", b), ("high", c)] d s = d := by
  simp only [lookupLevel, if_neg (Ne.symm h1), if_neg (Ne.symm h2), if_neg (Ne.symm h3)]

/-! ## C1: Chromatic Aberration shift and edge handling -/

/-- The frame of the C1 counterexample: one row, eight columns, the red
channel at column x holding x + 10. -/
def cexFrameCA : Frame := ⟨1, 8, fun _ x c => if c = 0 then x + 10 else 0⟩

/-- C1 counterexample: at level low (shift 3) on the 8-wide frame
`cexFrameCA`, the rightmost column of the shifted red channel holds the value
wrapped around from input column 2 (namely 12), not black (0), refuting the
claim that the rightmost s columns of the shifted red channel are zero. -/
theorem chromatic_aberration_no_wrap_cex :
    (apply_chromatic_aberration cexFrameCA "low").px 0 7 0 = cexFrameCA.px 0 2 0 ∧
    (apply_chromatic_aberration cexFrameCA "low").px 0 7 0 ≠ 0 := by
  constructor
  · decide
  · decide

/-- C1 amended: Chromatic Aberration shifts the red channel left and the blue
channel right by `s = levelShift level` (3/6/10 for low/medium/high) as a
circular `np.roll`: output red at column x is input red at column
`(x+s) mod w`, output blue at x is input blue at `(x+w-s) mod w`, and green is
untouched; consequently, for `s ≤ w`, the rightmost s columns of the shifted
red channel are copies of the leftmost s input red columns (wrapped from the
opposite edge), not black. -/
theorem chromatic_aberration_roll (f : Frame) (level : String)
    (hs : levelShift level ≤ f.w) :
    (∀ y x, x < f.w →
      (apply_chromatic_aberration f level).px y x 0
        = f.px y ((x + levelShift level) % f.w) 0 ∧
      (apply_chromatic_aberration f level).px y x 2
        = f.px y ((x + f.w - levelShift level) % f.w) 2 ∧
      (apply_chromatic_aberration f level).px y x 1 = f.px y x 1) ∧
    (∀ y j, j < levelShift level →
      (apply_chromatic_aberration f level).px y (f.w - levelShift level + j) 0
        = f.px y j 0) := by
  constructor
  · intro y x _
    refine ⟨?_, ?_, rfl⟩
    · show f.px y (rollIdx f.w (-(levelShift level : ℤ)) x) 0 = _
      rw [rollIdx_neg]
    · show f.px y (rollIdx f.w ((levelShift level : ℤ)) x) 2 = _
      rw [rollIdx_pos _ _ _ hs]
  · intro y j hj
    show f.px y (rollIdx f.w (-(levelShift level : ℤ)) (f.w - levelShift level + j)) 0 = _
    rw [rollIdx_neg]
    congr 1
    have h1 : f.w - levelShift level + j + levelShift level = f.w + j := by omega
    rw [h1, Nat.add_mod_left, Nat.mod_eq_of_lt (by omega)]

/-- Witness for chromatic_aberration_roll at shift 6 on the 8-wide frame. -/
theorem chromatic_aberration_roll_witness :
    (∀ y x, x < cexFrameCA.w →
      (apply_chromatic_aberration cexFrameCA "medium").px y x 0
        = cexFrameCA.px y ((x + levelShift "medium") % cexFrameCA.w) 0 ∧
      (apply_chromatic_aberration cexFrameCA "medium").px y x 2
        = cexFrameCA.px y ((x + cexFrameCA.w - levelShift "medium") % cexFrameCA.w) 2 ∧
      (apply_chromatic_aberration cexFrameCA "medium").px y x 1 = cexFrameCA.px y x 1) ∧
    (∀ y j, j < levelShift "medium" →
      (apply_chromatic_aberration cexFrameCA "medium").px y
          (cexFrameCA.w - levelShift "medium" + j) 0 = cexFrameCA.px y j 0) :=
  chromatic_aberration_roll cexFrameCA "medium" (by decide)

/-! ## C9: the green channel is untouched -/

/-- C9: Chromatic Aberration leaves the green channel of every pixel unchanged
at every level (only the red and blue channels are remapped), and preserves
the frame dimensions. -/
theorem chromatic_aberration_green_unchanged (f : Frame) (level : String) :
    (apply_chromatic_aberration f level).h = f.h ∧
    (apply_chromatic_aberration f level).w = f.w ∧
    ∀ y x, (apply_chromatic_aberration f level).px y x 1 = f.px y x 1 :=
  ⟨rfl, rfl, fun _ _ => rfl⟩

/-! ## C7: Invert is an involution -/

/-- A concrete 1x1 frame of value 7. -/
def frame7 : Frame := ⟨1, 1, fun _ _ _ => 7⟩

/-- C7: the Invert effect maps every channel value v to 255 - v, and applying
it twice returns the original frame exactly (on 8-bit wellformed frames). -/
theorem invert_involution (f : Frame) (hWF : f.WF) :
    (∀ y x c, (apply_invert_colors f).px y x c = 255 - f.px y x c) ∧
    (apply_invert_colors (apply_invert_colors f)).Eqv f := by
  refine ⟨fun _ _ _ => rfl, rfl, rfl, fun y hy x hx c hc => ?_⟩
  have hb := hWF y hy x hx c hc
  show 255 - (255 - f.px y x c) = f.px y x c
  omega

/-- Witness for invert_involution at the concrete frame frame7. -/
theorem invert_involution_witness :
    (∀ y x c, (apply_invert_colors frame7).px y x c = 255 - frame7.px y x c) ∧
    (apply_invert_colors (apply_invert_colors frame7)).Eqv frame7 :=
  invert_involution frame7 (by decide)

/-! ## C3: the glitch trigger (code bug) -/

/-- C3 (code bug): in the image engine the glitch "probability" is the raw
percentage 30/50/70 (default 50) and the trigger is
`random.random() < probability`, so every uniform sample in [0,1) passes the
check: each of the 1-5 attempts always triggers, at every level,
contradicting the 30/50/70 percent trigger probability of the claim and of
the code comment on the `level_map`. -/
theorem glitch_trigger_always (level : String) (u : ℚ) (h0 : 0 ≤ u) (h1 : u < 1) :
    glitchTrigger level u = true ∧ glitchTriggerSpec level (9/10) = decide ((9/10 : ℚ) < glitchProbability level / 100) := by
  refine ⟨?_, rfl⟩
  have hp : 30 ≤ glitchProbability level := by
    simp only [glitchProbability, lookupLevel]
    split_ifs <;> norm_num
  simp only [glitchTrigger, decide_eq_true_eq]
  calc u < 1 := h1
    _ ≤ 30 := by norm_num
    _ ≤ glitchProbability level := hp

/-- Witness for glitch_trigger_always: the sample 0.9 at level low triggers in
the code although 0.9 is not below the intended probability 0.3. -/
theorem glitch_trigger_always_witness :
    glitchTrigger "low" (9/10) = true ∧
    glitchTriggerSpec "low" (9/10) = decide ((9/10 : ℚ) < glitchProbability "low" / 100) :=
  glitch_trigger_always "low" (9/10) (by norm_num) (by norm_num)

/-! ## C4: dimension preservation -/

/-- C10: a level string outside low/medium/high never raises - each effect
reads its parameter with `level_map.get(level, default)` - and the selected
parameter (hence the whole effect) is exactly the one of the per-effect
default: the medium value for every effect except Rotate, whose default is
the high value (90 degrees, -90 in the video engine). -/
theorem unknown_level_defaults (s : String) (f : Frame) (noise : ℕ → ℕ → ℕ → ℤ)
    (h1 : s ≠ "low") (h2 : s ≠ "medium") (h3 : s ≠ "high") :
    levelSaturation s = levelSaturation "medium" ∧
    levelContrastImage s = levelContrastImage "medium" ∧
    levelContrastVideo s = levelContrastVideo "medium" ∧
    levelShift s = levelShift "medium" ∧
    levelPixelSize s = levelPixelSize "medium" ∧
    levelGrain s = levelGrain "medium" ∧
    glitchProbability s = glitchProbability "medium" ∧
    glitchProbabilityVideo s = glitchProbabilityVideo "medium" ∧
    levelNeon s = levelNeon "medium" ∧
    levelCartoon s = levelCartoon "medium" ∧
    levelStrength s = levelStrength "medium" ∧
    levelKenBurns s = levelKenBurns "medium" ∧
    levelSpeed s = levelSpeed "medium" ∧
    levelRolling s = levelRolling "medium" ∧
    levelFade s = levelFade "medium" ∧
    levelAngle s = levelAngle "high" ∧
    levelAngleVideo s = levelAngleVideo "high" ∧
    apply_chromatic_aberration f s = apply_chromatic_aberration f "medium" ∧
    apply_vignette f s = apply_vignette f "medium" ∧
    apply_film_grain f noise s = apply_film_grain f noise "medium" := by
  have hShift : levelShift s = levelShift "medium" :=
    lookupLevel_unknown _ _ _ _ s h1 h2 h3
  have hStrength : levelStrength s = levelStrength "medium" :=
    lookupLevel_unknown _ _ _ _ s h1 h2 h3
  have hGrain : levelGrain s = levelGrain "medium" :=
    lookupLevel_unknown _ _ _ _ s h1 h2 h3
  refine ⟨lookupLevel_unknown _ _ _ _ s h1 h2 h3,
    lookupLevel_unknown _ _ _ _ s h1 h2 h3,
    lookupLevel_unknown _ _ _ _ s h1 h2 h3,
    hShift,
    lookupLevel_unknown _ _ _ _ s h1 h2 h3,
    hGrain,
    lookupLevel_unknown _ _ _ _ s h1 h2 h3,
    lookupLevel_unknown _ _ _ _ s h1 h2 h3,
    lookupLevel_unknown _ _ _ _ s h1 h2 h3,
    lookupLevel_unknown _ _ _ _ s h1 h2 h3,
    hStrength,
    lookupLevel_unknown _ _ _ _ s h1 h2 h3,
    lookupLevel_unknown _ _ _ _ s h1 h2 h3,
    lookupLevel_unknown _ _ _ _ s h1 h2 h3,
    lookupLevel_unknown _ _ _ _ s h1 h2 h3,
    lookupLevel_unknown _ _ _ _ s h1 h2 h3,
    lookupLevel_unknown _ _ _ _ s h1 h2 h3,
    ?_, ?_, ?_⟩
  · unfold apply_chromatic_aberration
    rw [hShift]
  · unfold apply_vignette
    rw [hStrength]
  · unfold apply_film_grain
    rw [hGrain]

/-- Witness for unknown_level_defaults at the level string "weird". -/
theorem unknown_level_defaults_witness :
    levelSaturation "weird" = levelSaturation "medium" ∧
    levelContrastImage "weird" = levelContrastImage "medium" ∧
    levelContrastVideo "weird" = levelContrastVideo "medium" ∧
    levelShift "weird" = levelShift "medium" ∧
    levelPixelSize "weird" = levelPixelSize "medium" ∧
    levelGrain "weird" = levelGrain "medium" ∧
    glitchProbability "weird" = glitchProbability "medium" ∧
    glitchProbabilityVideo "weird" = glitchProbabilityVideo "medium" ∧
    levelNeon "weird" = levelNeon "medium" ∧
    levelCartoon "weird" = levelCartoon "medium" ∧
    levelStrength "weird" = levelStrength "medium" ∧
    levelKenBurns "weird" = levelKenBurns "medium" ∧
    levelSpeed "weird" = levelSpeed "medium" ∧
    levelRolling "weird" = levelRolling "medium" ∧
    levelFade "weird" = levelFade "medium" ∧
    levelAngle "weird" = levelAngle "high" ∧
    levelAngleVideo "weird" = levelAngleVideo "high" ∧
    apply_chromatic_aberration frame7 "weird" = apply_chromatic_aberration frame7 "medium" ∧
    apply_vignette frame7 "weird" = apply_vignette frame7 "medium" ∧
    apply_film_grain frame7 (fun _ _ _ => 0) "weird"
      = apply_film_grain frame7 (fun _ _ _ => 0) "medium" :=
  unknown_level_defaults "weird" frame7 (fun _ _ _ => 0)
    (by decide) (by decide) (by decide)

/-! ## C6: unknown effect names in a chain -/

lemma vidStep_fst_indep (reg : List (String × (Frame → List String → Frame)))
    (fr : Frame) (ws ws' : List String) (e : EffectItem) :
    (vidStep reg (fr, ws) e).1 = (vidStep reg (fr, ws') e).1 := by
  cases e with
  | tupleItem n ps => simp only [vidStep]; cases lookupEffect n reg <;> rfl
  | strItem n => simp only [vidStep]; cases lookupEffect n reg <;> rfl
  | otherItem => rfl

lemma vidFold_fst_indep (reg : List (String × (Frame → List String → Frame))) :
    ∀ (es : List EffectItem) (fr : Frame) (ws ws' : List String),
      (List.foldl (vidStep reg) (fr, ws) es).1
        = (List.foldl (vidStep reg) (fr, ws') es).1 := by
  intro es
  induction es with
  | nil => intro fr ws ws'; rfl
  | cons e es ih =>
    intro fr ws ws'
    simp only [List.foldl_cons]
    rw [show vidStep reg (fr, ws) e
        = ((vidStep reg (fr, ws) e).1, (vidStep reg (fr, ws) e).2) from rfl,
      show vidStep reg (fr, ws') e
        = ((vidStep reg (fr, ws') e).1, (vidStep reg (fr, ws') e).2) from rfl,
      vidStep_fst_indep reg fr ws ws' e]
    exact ih _ _ _

/-- C6 (amended form): an effect name missing from the registry is skipped -
the frame passes through that chain element unchanged and all remaining
elements are still applied, in both engines and for both chain element
shapes - and the chain is never aborted; the video engine prints a
not-found warning for the skipped element, while the image engine prints
nothing. -/
theorem unknown_effect_skip (reg : List (String × (Frame → List String → Frame)))
    (n : String) (hn : lookupEffect n reg = none) :
    (∀ pre post f ps,
      apply_effects_in_sequence_image reg (pre ++ EffectItem.tupleItem n ps :: post) f
        = apply_effects_in_sequence_image reg (pre ++ post) f) ∧
    (∀ pre post f,
      apply_effects_in_sequence_image reg (pre ++ EffectItem.strItem n :: post) f
        = apply_effects_in_sequence_image reg (pre ++ post) f) ∧
    (∀ pre post f,
      (apply_effects_in_sequence_video reg (pre ++ EffectItem.strItem n :: post) f).1
        = (apply_effects_in_sequence_video reg (pre ++ post) f).1) ∧
    (∀ f, (apply_effects_in_sequence_video reg [EffectItem.strItem n] f).2
        = ["Warning: Effect " ++ n ++ " not found."]) := by
  refine ⟨?_, ?_, ?_, ?_⟩
  · intro pre post f ps
    unfold apply_effects_in_sequence_image
    rw [List.foldl_append, List.foldl_append, List.foldl_cons,
      show imgStep reg (List.foldl (imgStep reg) (f, []) pre) (EffectItem.tupleItem n ps)
        = List.foldl (imgStep reg) (f, []) pre by simp [imgStep, hn]]
  · intro pre post f
    unfold apply_effects_in_sequence_image
    rw [List.foldl_append, List.foldl_append, List.foldl_cons,
      show imgStep reg (List.foldl (imgStep reg) (f, []) pre) (EffectItem.strItem n)
        = List.foldl (imgStep reg) (f, []) pre by simp [imgStep, hn]]
  · intro pre post f
    unfold apply_effects_in_sequence_video
    rw [List.foldl_append, List.foldl_append, List.foldl_cons]
    set acc := List.foldl (vidStep reg) (f, []) pre with hacc
    rw [show vidStep reg acc (EffectItem.strItem n)
        = (acc.1, acc.2 ++ ["Warning: Effect " ++ n ++ " not found."]) by
          simp [vidStep, hn]]
    rw [show acc = (acc.1, acc.2) from rfl]
    exact vidFold_fst_indep reg post acc.1 _ _
  · intro f
    unfold apply_effects_in_sequence_video
    simp [vidStep, hn]

/-- The registry used by the C6 witness and counterexample: just the Invert
Colors effect. -/
def regInvert : List (String × (Frame → List String → Frame)) :=
  [("Invert Colors", fun f _ => apply_invert_colors f)]

/-- Witness for unknown_effect_skip with the name Zoom missing from a
one-entry registry. -/
theorem unknown_effect_skip_witness :
    (∀ pre post f ps,
      apply_effects_in_sequence_image regInvert (pre ++ EffectItem.tupleItem "Zoom" ps :: post) f
        = apply_effects_in_sequence_image regInvert (pre ++ post) f) ∧
    (∀ pre post f,
      apply_effects_in_sequence_image regInvert (pre ++ EffectItem.strItem "Zoom" :: post) f
        = apply_effects_in_sequence_image regInvert (pre ++ post) f) ∧
    (∀ pre post f,
      (apply_effects_in_sequence_video regInvert (pre ++ EffectItem.strItem "Zoom" :: post) f).1
        = (apply_effects_in_sequence_video regInvert (pre ++ post) f).1) ∧
    (∀ f, (apply_effects_in_sequence_video regInvert [EffectItem.strItem "Zoom"] f).2
        = ["Warning: Effect " ++ "Zoom" ++ " not found."]) :=
  unknown_effect_skip regInvert "Zoom" (by simp [lookupEffect])

/-- A concrete 1x1 frame of value 10. -/
def frameC6 : Frame := ⟨1, 1, fun _ _ _ => 10⟩

/-- C6 counterexample to the claimed warning: the image engine runs the chain
[Zoom, Invert Colors] to completion - the unknown name Zoom is skipped and the
remaining Invert is applied, giving pixel value 245 - but its collected
printed output is empty: the image engine skips silently, with no warning. -/
theorem unknown_effect_silent_cex :
    (apply_effects_in_sequence_image regInvert
        [EffectItem.strItem "Zoom", EffectItem.strItem "Invert Colors"] frameC6).2 = [] ∧
    (apply_effects_in_sequence_image regInvert
        [EffectItem.strItem "Zoom", EffectItem.strItem "Invert Colors"] frameC6).1.px 0 0 0
      = 245 := by
  exact ⟨rfl, rfl⟩

/-! ## C2: Vignette -/

lemma levelStrength_nonneg (level : String) : 0 ≤ levelStrength level := by
  simp only [levelStrength, lookupLevel]
  split_ifs <;> norm_num

lemma vignetteMask_bounds (h w y x : ℕ) (strength : ℚ) (hy : y < h) (hx : x < w)
    (hs0 : 0 ≤ strength) (hs1 : strength ≤ 1) :
    0 ≤ vignetteMask h w strength y x ∧ vignetteMask h w strength y x ≤ 1 := by
  have hw : (0 : ℚ) < (w : ℚ) := by exact_mod_cast Nat.pos_of_ne_zero (by omega)
  have hh : (0 : ℚ) < (h : ℚ) := by exact_mod_cast Nat.pos_of_ne_zero (by omega)
  have hmax : 0 < maxDistSq h w := by
    unfold maxDistSq; positivity
  have hd0 : 0 ≤ distSq h w y x := by
    unfold distSq; positivity
  have hx2 : (x : ℚ) ≤ (w : ℚ) := by exact_mod_cast hx.le
  have hy2 : (y : ℚ) ≤ (h : ℚ) := by exact_mod_cast hy.le
  have hx1 : (0 : ℚ) ≤ (x : ℚ) := Nat.cast_nonneg x
  have hy1 : (0 : ℚ) ≤ (y : ℚ) := Nat.cast_nonneg y
  have hdle : distSq h w y x ≤ maxDistSq h w := by
    unfold distSq maxDistSq
    nlinarith [mul_nonneg hx1 (sub_nonneg.2 hx2), mul_nonneg hy1 (sub_nonneg.2 hy2)]
  have hg0 : 0 ≤ distSq h w y x / maxDistSq h w := div_nonneg hd0 hmax.le
  have hg1 : distSq h w y x / maxDistSq h w ≤ 1 := (div_le_one hmax).2 hdle
  unfold vignetteMask
  constructor
  · nlinarith
  · nlinarith

lemma u8cast_natCast (v : ℕ) (hv : v ≤ 255) : u8cast (v : ℚ) = v := by
  unfold u8cast ratTrunc
  rw [if_pos (Nat.cast_nonneg v), Int.floor_natCast,
    Int.emod_eq_of_lt (by exact_mod_cast Nat.zero_le v) (by exact_mod_cast by omega)]
  exact Int.toNat_natCast v

lemma u8cast_le_of_le (q : ℚ) (v : ℕ) (h0 : 0 ≤ q) (hq : q ≤ (v : ℚ)) (hv : v ≤ 255) :
    u8cast q ≤ v := by
  unfold u8cast ratTrunc
  rw [if_pos h0]
  have h1 : 0 ≤ ⌊q⌋ := Int.floor_nonneg.2 h0
  have h2 : ⌊q⌋ ≤ (v : ℤ) := by
    have := Int.floor_le_floor hq
    rwa [Int.floor_natCast] at this
  rw [Int.emod_eq_of_lt h1 (by omega)]
  omega

/-- C2 amended: the Vignette effect multiplies each pixel by the unclamped
factor `1 - strength * (normalized_distance)^2` and converts with the raw
uint8 cast; the exact center pixel (even dimensions) is unchanged, and for
the levels with strength at most 1 (low, medium, and the unrecognized-level
default) no pixel value grows or wraps; the claimed clamp at 0 does not
exist, so at strength 1.5 corner values can go negative and wrap (see the
counterexample). -/
theorem vignette_amended (f : Frame) (level : String) (hWF : f.WF) :
    (∀ y x c, (apply_vignette f level).px y x c
        = u8cast ((f.px y x c : ℚ) * vignetteMask f.h f.w (levelStrength level) y x)) ∧
    (f.h % 2 = 0 → f.w % 2 = 0 → 0 < f.h → 0 < f.w → ∀ c < 3,
        (apply_vignette f level).px (f.h / 2) (f.w / 2) c = f.px (f.h / 2) (f.w / 2) c) ∧
    (levelStrength level ≤ 1 → ∀ y < f.h, ∀ x < f.w, ∀ c < 3,
        (apply_vignette f level).px y x c ≤ f.px y x c) := by
  refine ⟨fun _ _ _ => rfl, ?_, ?_⟩
  · intro hh hw h0 w0 c hc
    have hcy : ((f.h / 2 : ℕ) : ℚ) = (f.h : ℚ) / 2 := by
      obtain ⟨m, hm⟩ := Nat.even_iff.mpr hh
      rw [hm, show (m + m) / 2 = m by omega]; push_cast; ring
    have hcx : ((f.w / 2 : ℕ) : ℚ) = (f.w : ℚ) / 2 := by
      obtain ⟨m, hm⟩ := Nat.even_iff.mpr hw
      rw [hm, show (m + m) / 2 = m by omega]; push_cast; ring
    show u8cast ((f.px (f.h / 2) (f.w / 2) c : ℚ)
        * vignetteMask f.h f.w (levelStrength level) (f.h / 2) (f.w / 2))
      = f.px (f.h / 2) (f.w / 2) c
    have hmask : vignetteMask f.h f.w (levelStrength level) (f.h / 2) (f.w / 2) = 1 := by
      unfold vignetteMask distSq
      rw [hcx, hcy]
      simp
    rw [hmask, mul_one]
    exact u8cast_natCast _ (hWF _ (by omega) _ (by omega) c hc)
  · intro hs1 y hy x hx c hc
    have hb := hWF y hy x hx c hc
    obtain ⟨hm0, hm1⟩ := vignetteMask_bounds f.h f.w y x (levelStrength level) hy hx
      (levelStrength_nonneg level) hs1
    show u8cast ((f.px y x c : ℚ) * vignetteMask f.h f.w (levelStrength level) y x)
      ≤ f.px y x c
    refine u8cast_le_of_le _ _ (mul_nonneg (Nat.cast_nonneg _) hm0) ?_ hb
    calc (f.px y x c : ℚ) * vignetteMask f.h f.w (levelStrength level) y x
        ≤ (f.px y x c : ℚ) * 1 := by
          exact mul_le_mul_of_nonneg_left hm1 (Nat.cast_nonneg _)
      _ = (f.px y x c : ℚ) := mul_one _

/-- A concrete 2x2 frame of value 100. -/
def frameV100 : Frame := ⟨2, 2, fun _ _ _ => 100⟩

/-- Witness for vignette_amended on the 2x2 frame of value 100 at level low. -/
theorem vignette_amended_witness :
    (∀ y x c, (apply_vignette frameV100 "low").px y x c
        = u8cast ((frameV100.px y x c : ℚ)
            * vignetteMask frameV100.h frameV100.w (levelStrength "low") y x)) ∧
    (frameV100.h % 2 = 0 → frameV100.w % 2 = 0 → 0 < frameV100.h → 0 < frameV100.w →
      ∀ c < 3, (apply_vignette frameV100 "low").px (frameV100.h / 2) (frameV100.w / 2) c
        = frameV100.px (frameV100.h / 2) (frameV100.w / 2) c) ∧
    (levelStrength "low" ≤ 1 → ∀ y < frameV100.h, ∀ x < frameV100.w, ∀ c < 3,
      (apply_vignette frameV100 "low").px y x c ≤ frameV100.px y x c) :=
  vignette_amended frameV100 "low" (by decide)

/-- A concrete 2x2 frame of value 200. -/
def frameV200 : Frame := ⟨2, 2, fun _ _ _ => 200⟩

/-- C2 counterexample: at level high (strength 1.5), the corner pixel (0, 0)
of a 2x2 frame of value 200 has unclamped mask -1/2, and the code wraps
200 * (-1/2) = -100 to 156 under the uint8 cast, while the clamped rule
stated by the claim would give 0: the multiplier is not clamped and pixel
values do wrap. -/
theorem vignette_unclamped_cex :
    (apply_vignette frameV200 "high").px 0 0 0 = 156 ∧
    (apply_vignette_spec frameV200 "high").px 0 0 0 = 0 := by
  have hs : levelStrength "high" = 3/2 := by
    simp [levelStrength, lookupLevel]
  have hm : vignetteMask 2 2 (3/2) 0 0 = -(1/2) := by
    unfold vignetteMask distSq maxDistSq
    norm_num
  constructor
  · show u8cast ((200 : ℕ) * vignetteMask 2 2 (levelStrength "high") 0 0) = 156
    rw [hs, hm]
    show u8cast ((200 : ℚ) * -(1/2)) = 156
    rw [show (200 : ℚ) * -(1/2) = -100 by norm_num]
    unfold u8cast ratTrunc
    rw [if_neg (by norm_num)]
    rw [show -⌊-(-100 : ℚ)⌋ = -100 by norm_num]
    decide
  · show u8cast ((200 : ℕ) * max 0 (vignetteMask 2 2 (levelStrength "high") 0 0)) = 0
    rw [hs, hm]
    rw [show max 0 (-(1/2) : ℚ) = 0 by norm_num]
    rw [mul_zero]
    unfold u8cast ratTrunc
    rw [if_pos le_rfl, Int.floor_zero]
    decide

/-! ## C5: the LUT parser -/

/-- The C5 counterexample file: a declared size of 2 but only one data row. -/
def cexCubeLines : List String := ["LUT_3D_SIZE 2", "0 0 0"]

/-- C5 counterexample: on the file [LUT_3D_SIZE 2, 0 0 0] the scan ends with
N = 2 (nonzero) and one collected data row, so by the claim the parser should
succeed, yet it raises: the reshape of 3 values to a 2x2x2x3 table fails.
The parser does not fail *exactly* when N is unset/zero or no row was
collected. -/
theorem parse_cube_reshape_cex :
    (scanCube cexCubeLines).toOption.map (fun p => (p.1, p.2.length)) = some (2, 1) ∧
    (parse_cube_file cexCubeLines).isOk = false := by
  constructor
  · decide
  · decide

/-- C5 amended: for any file whose line scan completes (every int()/float()
conversion succeeds), the parser fails exactly when the guard rejects (N = 0,
from an absent or last-wins-zero LUT_3D_SIZE, or an empty data-row list) or
the reshape rejects (ragged rows, or total value count different from
3 * N^3, or N < 0); otherwise it succeeds and returns precisely the collected
rows with grid size N. On any failure the error propagates and no table value
is produced. -/
theorem parse_cube_fails_iff (lines : List String) (n : ℤ) (data : List (List ℚ))
    (hscan : scanCube lines = Except.ok (n, data)) :
    ((parse_cube_file lines).isOk
      ↔ (¬(n = 0 ∨ data = []) ∧ reshapeOk n data = true)) ∧
    (parse_cube_file lines = Except.ok ⟨n.toNat, data⟩ ∨
      ∃ msg, parse_cube_file lines = Except.error msg) := by
  have hA : parse_cube_file lines =
      (if n = 0 ∨ data = [] then
        Except.error "Invalid or unsupported .cube file format."
      else if reshapeOk n data then
        Except.ok ⟨n.toNat, data⟩
      else Except.error "ValueError: cannot reshape array") := by
    unfold parse_cube_file
    rw [hscan]
    rfl
  rw [hA]
  by_cases hg : n = 0 ∨ data = []
  · rw [if_pos hg]
    exact ⟨by simp [Except.isOk, Except.toBool, hg], Or.inr ⟨_, rfl⟩⟩
  · rw [if_neg hg]
    by_cases hr : reshapeOk n data = true
    · rw [if_pos hr]
      exact ⟨by simp [Except.isOk, Except.toBool, hg, hr], Or.inl rfl⟩
    · rw [if_neg hr]
      exact ⟨by simp [Except.isOk, Except.toBool, hg, hr], Or.inr ⟨_, rfl⟩⟩

/-- A wellformed 2-point cube file with all 8 rows. -/
def goodCubeLines : List String :=
  ["# demo cube", "LUT_3D_SIZE 2", "0 0 0", "0 0 1", "0 1 0", "0 1 1",
    "1 0 0", "1 0 1", "1 1 0", "1 1 1"]

/-- The scan result of goodCubeLines, for the closed witness statement. -/
def goodCubeScan : ℤ × List (List ℚ) :=
  (scanCube goodCubeLines).toOption.getD (0, [])

/-- Witness for parse_cube_fails_iff on the wellformed 2-point cube file. -/
theorem parse_cube_fails_iff_witness :
    ((parse_cube_file goodCubeLines).isOk
      ↔ (¬(goodCubeScan.1 = 0 ∨ goodCubeScan.2 = []) ∧
          reshapeOk goodCubeScan.1 goodCubeScan.2 = true)) ∧
    (parse_cube_file goodCubeLines
        = Except.ok ⟨goodCubeScan.1.toNat, goodCubeScan.2⟩ ∨
      ∃ msg, parse_cube_file goodCubeLines = Except.error msg) :=
  parse_cube_fails_iff goodCubeLines goodCubeScan.1 goodCubeScan.2 rfl

/-! ## C8: the interpolator is exact at grid nodes -/

lemma gridCell_node (N i : ℕ) (h2 : 2 ≤ N) (hi : i < N) :
    gridCell N ((i : ℚ) / ((N : ℚ) - 1)) = if i = 0 then 0 else i - 1 := by
  have hN : ((N : ℚ) - 1) ≠ 0 := by
    have h2q : (2 : ℚ) ≤ (N : ℚ) := by exact_mod_cast h2
    linarith
  unfold gridCell
  rw [div_mul_cancel₀ _ hN]
  rw [show -(i : ℚ) = ((-(i : ℤ) : ℤ) : ℚ) by push_cast; ring, Int.floor_intCast]
  have hNi : (2 : ℤ) ≤ (N : ℤ) := by exact_mod_cast h2
  have hii : (i : ℤ) < (N : ℤ) := by exact_mod_cast hi
  split_ifs with h0
  · subst h0
    simp
  · have h1 : i ≠ 0 := h0
    omega

lemma gridFrac_node (N i : ℕ) (h2 : 2 ≤ N) (hi : i < N) :
    gridFrac N ((i : ℚ) / ((N : ℚ) - 1)) = if i = 0 then 0 else 1 := by
  have hN : ((N : ℚ) - 1) ≠ 0 := by
    have h2q : (2 : ℚ) ≤ (N : ℚ) := by exact_mod_cast h2
    linarith
  unfold gridFrac
  rw [gridCell_node N i h2 hi, div_mul_cancel₀ _ hN]
  split_ifs with h0
  · subst h0; norm_num
  · have h1 : 1 ≤ i := Nat.pos_of_ne_zero h0
    rw [Nat.cast_sub h1]
    push_cast
    ring

lemma nodeBlend_node (N i : ℕ) (h2 : 2 ≤ N) (hi : i < N) (v : ℕ → ℚ) :
    nodeBlend N v ((i : ℚ) / ((N : ℚ) - 1)) = v i := by
  unfold nodeBlend
  rw [gridCell_node N i h2 hi, gridFrac_node N i h2 hi]
  by_cases h0 : i = 0
  · subst h0
    rw [if_pos rfl, if_pos rfl]
    unfold lerp; ring
  · rw [if_neg h0, if_neg h0]
    unfold lerp
    rw [show (i - 1) + 1 = i from by omega]
    ring

/-- C8: evaluating the trilinear interpolator at an exact grid-node position
`(i, j, k) / (N-1)` returns exactly the value stored at that node, for every
table, every grid size N at least 2 and every node; the floating-point
tolerance of the claim is the exact equality of this rational model. -/
theorem trilinear_grid_node_exact (N i j k : ℕ) (tab : ℕ → ℕ → ℕ → ℚ)
    (h2 : 2 ≤ N) (hi : i < N) (hj : j < N) (hk : k < N) :
    trilinear N tab ((i : ℚ) / ((N : ℚ) - 1)) ((j : ℚ) / ((N : ℚ) - 1))
      ((k : ℚ) / ((N : ℚ) - 1)) = tab i j k := by
  simp only [trilinear, nodeBlend_node N i h2 hi, nodeBlend_node N j h2 hj,
    nodeBlend_node N k h2 hk]

/-- An N = 2 test cube with 8 distinct values per channel slot. -/
def tabCube2 : ℕ → ℕ → ℕ → ℚ :=
  fun i j k => (i : ℚ) * 4 + (j : ℚ) * 2 + (k : ℚ) + 1

/-- Witness for trilinear_grid_node_exact on the hand-built N = 2 cube at the
grid node (1, 0, 1). -/
theorem trilinear_grid_node_exact_witness :
    trilinear 2 tabCube2 ((1 : ℚ) / ((2 : ℚ) - 1)) ((0 : ℚ) / ((2 : ℚ) - 1))
      ((1 : ℚ) / ((2 : ℚ) - 1)) = tabCube2 1 0 1 :=
  trilinear_grid_node_exact 2 1 0 1 tabCube2 (by decide) (by decide) (by decide) (by decide)

end NoviMor
